import Mathlib

/-!
Verification of the paper-rag inspection and scoring utilities.

The scorer is embedded from `evaluate_answers.py` (token-level F1 between a
candidate answer and reference answers); the tree analyzer from
`inspect_tree.py` (structural statistics, JSON export, ASCII rendering of a
RAPTOR summary tree).  Scores are modelled as exact rationals, Python dicts
as ordered association lists, Python sets as `Finset`, and operations that
can raise a `KeyError` return `Option`.
-/

namespace PaperRag

/-! ### Scorer: `evaluate_answers.py`, `compute_token_f1` (lines 9-35)

`re.sub(r'\W+', ' ', text)` replaces every maximal run of non-word
characters by a single space; word characters are modelled as ASCII
alphanumerics and underscore. -/

def isWordChar (c : Char) : Bool := c.isAlphanum || c == '_'

/-- State machine for `collapseRuns`: `inRun` is true while inside a
non-word run whose replacement space has already been emitted. -/
def collapseAux : Bool → List Char → List Char
  | _, [] => []
  | inRun, c :: cs =>
    if isWordChar c then c :: collapseAux false cs
    else if inRun then collapseAux true cs
    else ' ' :: collapseAux true cs

/-- Python `re.sub(r'\W+', ' ', text)`: each maximal run of non-word
characters becomes one space. -/
def collapseRuns (l : List Char) : List Char := collapseAux false l

/-- Helper for `pySplit`: accumulates the current word (reversed). -/
def splitAux : List Char → List Char → List String
  | [], cur => if cur.isEmpty then [] else [String.mk cur.reverse]
  | c :: cs, cur =>
    if c = ' ' then
      if cur.isEmpty then splitAux cs [] else String.mk cur.reverse :: splitAux cs []
    else splitAux cs (c :: cur)

/-- Python `str.split()` with no argument: split on whitespace runs,
dropping empty pieces (after `collapseRuns` the only whitespace is `' '`). -/
def pySplit (l : List Char) : List String := splitAux l []

/-- The inner `normalize` of `compute_token_f1`: lowercase, collapse
non-word runs to spaces, split. -/
def normalize (text : String) : List String :=
  pySplit (collapseRuns (text.data.map Char.toLower))

/-- Embedding of `compute_token_f1(prediction, reference)`: token-level F1
over the normalized token sets, as an exact rational. -/
def compute_token_f1 (prediction reference : String) : ℚ :=
  let pred_tokens := (normalize prediction).toFinset
  let ref_tokens := (normalize reference).toFinset
  if pred_tokens = ∅ ∨ ref_tokens = ∅ then 0
  else
    let common := pred_tokens ∩ ref_tokens
    if common = ∅ then 0
    else
      let precision : ℚ := (common.card : ℚ) / (pred_tokens.card : ℚ)
      let recall' : ℚ := (common.card : ℚ) / (ref_tokens.card : ℚ)
      2 * (precision * recall') / (precision + recall')

/-- The scoring loop of `evaluate_first_experiment` (lines 78-85): running
best score (initially `0`) and best reference (initially `""`), updated only
on strict improvement. -/
def scoreLoop (answer : String) : List String → ℚ → String → ℚ × String
  | [], max_f1, best_ref => (max_f1, best_ref)
  | ref :: refs, max_f1, best_ref =>
    let f1 := compute_token_f1 answer ref
    if max_f1 < f1 then scoreLoop answer refs f1 ref
    else scoreLoop answer refs max_f1 best_ref

/-- Operation `score(candidate, references)`: the pair
`(best_score, best_reference)` computed by the loop in
`evaluate_first_experiment`. -/
def evaluate_answer (answer : String) (references : List String) : ℚ × String :=
  scoreLoop answer references 0 ""

/-! #### Spec reference definition of the pair score (§4.1 steps 1-2),
used only to compare against `compute_token_f1`. -/

/-- Modelled from the spec: "lowercase, replace every maximal run of
non-word characters with a single space, split on whitespace into a set of
unique tokens". -/
def specTokenSet (s : String) : Finset String :=
  (pySplit (collapseRuns (s.data.map Char.toLower))).toFinset

/-- Modelled from the spec: the §4.1 pair score — `0.0` if either token set
or the intersection is empty, else `2*precision*recall/(precision+recall)`. -/
def specPairScore (candidate reference : String) : ℚ :=
  let candidate_tokens := specTokenSet candidate
  let reference_tokens := specTokenSet reference
  if candidate_tokens = ∅ ∨ reference_tokens = ∅ then 0
  else
    let inter := candidate_tokens ∩ reference_tokens
    if inter = ∅ then 0
    else
      let precision : ℚ := (inter.card : ℚ) / (candidate_tokens.card : ℚ)
      let recall' : ℚ := (inter.card : ℚ) / (reference_tokens.card : ℚ)
      2 * precision * recall' / (precision + recall')

example : normalize "Hello, World!" = ["hello", "world"] := by decide
example : compute_token_f1 "!" "!" = 0 := by decide
example : evaluate_answer "x" ["y"] = (0, "") := by decide

/-! ### Scorer lemmas -/

/-- The pair score is never negative. -/
theorem compute_token_f1_nonneg (p r : String) : 0 ≤ compute_token_f1 p r := by
  unfold compute_token_f1
  dsimp only
  split
  · exact le_refl 0
  · split
    · exact le_refl 0
    · apply div_nonneg
      · apply mul_nonneg (by norm_num)
        exact mul_nonneg (div_nonneg (Nat.cast_nonneg _) (Nat.cast_nonneg _))
          (div_nonneg (Nat.cast_nonneg _) (Nat.cast_nonneg _))
      · exact add_nonneg (div_nonneg (Nat.cast_nonneg _) (Nat.cast_nonneg _))
          (div_nonneg (Nat.cast_nonneg _) (Nat.cast_nonneg _))

/-- The pair score is symmetric in candidate and reference. -/
theorem compute_token_f1_comm (a b : String) :
    compute_token_f1 a b = compute_token_f1 b a := by
  unfold compute_token_f1
  dsimp only
  by_cases h1 : (normalize a).toFinset = ∅ ∨ (normalize b).toFinset = ∅
  · rw [if_pos h1, if_pos (Or.symm h1)]
  · rw [if_neg h1, if_neg (fun hc => h1 (Or.symm hc))]
    by_cases h2 : (normalize a).toFinset ∩ (normalize b).toFinset = ∅
    · rw [if_pos h2, if_pos (by rwa [Finset.inter_comm])]
    · rw [if_neg h2, if_neg (by rwa [Finset.inter_comm])]
      rw [Finset.inter_comm ((normalize b).toFinset)]
      ring

/-- Running best/bound property of the scoring loop: the result dominates
the initial bound and every pair score in the list. -/
theorem scoreLoop_bounds (a : String) (rs : List String) : ∀ (b : ℚ) (s : String),
    b ≤ (scoreLoop a rs b s).1 ∧
      ∀ r ∈ rs, compute_token_f1 a r ≤ (scoreLoop a rs b s).1 := by
  induction rs with
  | nil => intro b s; simp [scoreLoop]
  | cons r rs ih =>
    intro b s
    simp only [scoreLoop]
    by_cases h : b < compute_token_f1 a r
    · rw [if_pos h]
      obtain ⟨h1, h2⟩ := ih (compute_token_f1 a r) r
      refine ⟨le_trans (le_of_lt h) h1, ?_⟩
      intro r' hr'
      rcases List.mem_cons.mp hr' with rfl | hm
      · exact h1
      · exact h2 r' hm
    · rw [if_neg h]
      obtain ⟨h1, h2⟩ := ih b s
      refine ⟨h1, ?_⟩
      intro r' hr'
      rcases List.mem_cons.mp hr' with rfl | hm
      · exact le_trans (le_of_not_lt h) h1
      · exact h2 r' hm

/-- Either the loop never improves on its initial state, or it returns the
first list element attaining the final (strictly improved) best score. -/
theorem scoreLoop_find (a : String) (rs : List String) : ∀ (b : ℚ) (s : String),
    ((scoreLoop a rs b s).1 = b ∧ (scoreLoop a rs b s).2 = s) ∨
      (b < (scoreLoop a rs b s).1 ∧
        rs.find? (fun r => decide ((scoreLoop a rs b s).1 ≤ compute_token_f1 a r)) =
          some (scoreLoop a rs b s).2) := by
  induction rs with
  | nil => intro b s; simp [scoreLoop]
  | cons r rs ih =>
    intro b s
    simp only [scoreLoop]
    by_cases h : b < compute_token_f1 a r
    · simp only [if_pos h]
      rcases ih (compute_token_f1 a r) r with ⟨hM, hs⟩ | ⟨hlt, hfind⟩
      · refine Or.inr ⟨by rw [hM]; exact h, ?_⟩
        rw [List.find?_cons_of_pos, hs]
        simp [hM]
      · refine Or.inr ⟨lt_trans h hlt, ?_⟩
        rw [List.find?_cons_of_neg, hfind]
        simp [not_le.mpr hlt]
    · simp only [if_neg h]
      rcases ih b s with ⟨hM, hs⟩ | ⟨hlt, hfind⟩
      · exact Or.inl ⟨hM, hs⟩
      · refine Or.inr ⟨hlt, ?_⟩
        rw [List.find?_cons_of_neg, hfind]
        simp only [decide_eq_true_eq, not_le]
        exact lt_of_le_of_lt (le_of_not_lt h) hlt

/-- When no pair score exceeds the initial bound, the loop returns its
initial state unchanged. -/
theorem scoreLoop_const (a : String) (rs : List String) : ∀ (b : ℚ) (s : String),
    (∀ r ∈ rs, compute_token_f1 a r ≤ b) → scoreLoop a rs b s = (b, s) := by
  induction rs with
  | nil => intro b s _; rfl
  | cons r rs ih =>
    intro b s h
    simp only [scoreLoop]
    rw [if_neg (not_lt.mpr (h r (List.mem_cons_self r rs)))]
    exact ih b s (fun r' hr' => h r' (List.mem_cons_of_mem r hr'))

/-! ### Claim theorems for the scorer -/

/-- C1: for every candidate and single reference, the pair score computed by
`compute_token_f1` equals the spec's reference definition of the score
(normalize to token sets; `0` on empty set or empty intersection; otherwise
the harmonic mean `2*precision*recall/(precision+recall)`). -/
theorem pair_score_matches_spec (prediction reference : String) :
    compute_token_f1 prediction reference = specPairScore prediction reference := by
  unfold compute_token_f1 specPairScore specTokenSet normalize
  dsimp only
  split
  · rfl
  · split
    · rfl
    · ring

/-- C6: the single-reference score is symmetric under swapping candidate and
reference, both for the raw pair score and for the best score returned by
the scoring loop on a singleton reference list. -/
theorem score_symmetric (a b : String) :
    compute_token_f1 a b = compute_token_f1 b a ∧
      (evaluate_answer a [b]).1 = (evaluate_answer b [a]).1 := by
  refine ⟨compute_token_f1_comm a b, ?_⟩
  simp only [evaluate_answer, scoreLoop, compute_token_f1_comm b a]
  by_cases hc : 0 < compute_token_f1 a b <;> simp [hc]

/-- C7 (amended): scoring a string against itself as the sole reference
yields exactly `1`, provided the string's normalized token set is
non-empty. -/
theorem self_score_one (a : String) (h : (normalize a).toFinset ≠ ∅) :
    compute_token_f1 a a = 1 ∧ (evaluate_answer a [a]).1 = 1 := by
  have hcard : ((normalize a).toFinset.card : ℚ) ≠ 0 := by
    exact_mod_cast Finset.card_ne_zero.mpr (Finset.nonempty_iff_ne_empty.mpr h)
  have hpair : compute_token_f1 a a = 1 := by
    unfold compute_token_f1
    dsimp only
    rw [if_neg (by simp [h]), Finset.inter_self, if_neg h, div_self hcard]
    norm_num
  refine ⟨hpair, ?_⟩
  simp [evaluate_answer, scoreLoop, hpair]

/-- C7 counterexample: the string `"!"` is non-empty, yet scoring it against
itself yields `0`, not `1` (its normalized token set is empty). -/
theorem self_score_one_counterexample :
    ("!" : String) ≠ "" ∧ compute_token_f1 "!" "!" = 0 ∧
      (evaluate_answer "!" ["!"]).1 = 0 ∧ ((0 : ℚ) ≠ 1) := by decide

/-- Witness for C7: a concrete string with a non-empty token set scores `1`
against itself. -/
theorem self_score_one_witness :
    (normalize "hello").toFinset ≠ ∅ ∧
      (compute_token_f1 "hello" "hello" = 1 ∧ (evaluate_answer "hello" ["hello"]).1 = 1) :=
  ⟨by decide, self_score_one "hello" (by decide)⟩

/-- C5 (amended): for a non-empty reference list, the returned best score is
the maximum of the pair scores (attained by some reference, and an upper
bound of all of them); when that maximum is positive the returned reference
is the first one attaining it, and when it is `0` the returned reference is
the sentinel `""`. -/
theorem best_reference_spec (a : String) (refs : List String) (hne : refs ≠ []) :
    (∃ r ∈ refs, compute_token_f1 a r = (evaluate_answer a refs).1) ∧
      (∀ r ∈ refs, compute_token_f1 a r ≤ (evaluate_answer a refs).1) ∧
      (0 < (evaluate_answer a refs).1 →
        refs.find? (fun r => decide ((evaluate_answer a refs).1 ≤ compute_token_f1 a r)) =
          some (evaluate_answer a refs).2) ∧
      ((evaluate_answer a refs).1 = 0 → (evaluate_answer a refs).2 = "") := by
  simp only [evaluate_answer]
  obtain ⟨hb, hub⟩ := scoreLoop_bounds a refs 0 ""
  rcases scoreLoop_find a refs 0 "" with ⟨hM, hs⟩ | ⟨hlt, hfind⟩
  · refine ⟨?_, hub, ?_, fun _ => hs⟩
    · match refs, hne with
      | r :: rs, _ =>
        refine ⟨r, List.mem_cons_self r rs, le_antisymm (hub r (List.mem_cons_self r rs)) ?_⟩
        rw [hM]
        exact compute_token_f1_nonneg a r
    · intro hpos
      rw [hM] at hpos
      exact absurd hpos (lt_irrefl 0)
  · refine ⟨?_, hub, fun _ => hfind, ?_⟩
    · have hmem := List.mem_of_find?_eq_some hfind
      have hp := List.find?_some hfind
      refine ⟨(scoreLoop a refs 0 "").2, hmem, ?_⟩
      exact le_antisymm (hub _ hmem) (by simpa using hp)
    · intro h0
      rw [h0] at hlt
      exact absurd hlt (lt_irrefl 0)

/-- C5 counterexample: with candidate `"x"` and references `["y"]` every
pair score is `0`; the first (and only) reference attaining the maximum is
`"y"`, but the code returns the sentinel `""` instead. -/
theorem best_reference_counterexample :
    evaluate_answer "x" ["y"] = (0, "") ∧
      (List.find? (fun r => decide ((evaluate_answer "x" ["y"]).1 ≤ compute_token_f1 "x" r))
        ["y"] = some "y") ∧
      ("" : String) ≠ "y" := by decide

/-- Witness for C5: the amended statement instantiated at a concrete
candidate and reference list. -/
theorem best_reference_spec_witness :
    (["europarl multiun", "nothing"] : List String) ≠ [] ∧
      ((∃ r ∈ (["europarl multiun", "nothing"] : List String),
          compute_token_f1 "europarl and multiun" r =
            (evaluate_answer "europarl and multiun" ["europarl multiun", "nothing"]).1) ∧
        (∀ r ∈ (["europarl multiun", "nothing"] : List String),
          compute_token_f1 "europarl and multiun" r ≤
            (evaluate_answer "europarl and multiun" ["europarl multiun", "nothing"]).1) ∧
        (0 < (evaluate_answer "europarl and multiun" ["europarl multiun", "nothing"]).1 →
          (["europarl multiun", "nothing"] : List String).find?
              (fun r => decide ((evaluate_answer "europarl and multiun"
                ["europarl multiun", "nothing"]).1 ≤ compute_token_f1 "europarl and multiun" r)) =
            some (evaluate_answer "europarl and multiun" ["europarl multiun", "nothing"]).2) ∧
        ((evaluate_answer "europarl and multiun" ["europarl multiun", "nothing"]).1 = 0 →
          (evaluate_answer "europarl and multiun" ["europarl multiun", "nothing"]).2 = "")) :=
  ⟨by decide, best_reference_spec "europarl and multiun" ["europarl multiun", "nothing"]
    (by decide)⟩

/-- C10 (amended): when the reference list is empty, or every reference
scores `0` against the candidate, the scorer returns best score `0` and the
sentinel `""` (which need not belong to the reference list). -/
theorem zero_score_sentinel (a : String) (refs : List String)
    (h : refs = [] ∨ ∀ r ∈ refs, compute_token_f1 a r = 0) :
    evaluate_answer a refs = (0, "") := by
  rcases h with rfl | h
  · rfl
  · exact scoreLoop_const a refs 0 "" (fun r hr => le_of_eq (h r hr))

/-- C10 counterexample: with references `[""]` every pair score is `0` and
the scorer returns the sentinel `""` — which here IS an element of the
reference list, refuting the claim's "not an element" assertion. -/
theorem zero_score_sentinel_counterexample :
    (∀ r ∈ ([""] : List String), compute_token_f1 "x" r = 0) ∧
      evaluate_answer "x" [""] = (0, "") ∧ ("" ∈ ([""] : List String)) := by decide

/-- Witness for C10: the amended statement at a concrete all-zero input. -/
theorem zero_score_sentinel_witness :
    ((["y"] : List String) = [] ∨ ∀ r ∈ (["y"] : List String), compute_token_f1 "x" r = 0) ∧
      evaluate_answer "x" ["y"] = (0, "") :=
  ⟨Or.inr (by decide), zero_score_sentinel "x" ["y"] (Or.inr (by decide))⟩

/-! ### Tree analyzer: `inspect_tree.py`

Nodes and trees follow §3 of the spec (the tree is built externally by the
RAPTOR library).  Python dicts become ordered association lists, node child
sets become `Finset Nat`, and a dict access that can raise `KeyError` is an
`Option`-valued lookup. -/

/-- A tree node: global index, text, and the set of child indices. -/
structure TreeNode where
  index : Nat
  text : String
  children : Finset Nat
deriving DecidableEq

/-- The tree object read by `inspect_tree.py`: `layer_to_nodes` maps layer
index to that layer's ordered node list; `all_nodes`, `leaf_nodes` and
`root_nodes` are dicts from global index to node; `num_layers` is the
highest layer index. -/
structure Tree where
  layer_to_nodes : List (Nat × List TreeNode)
  all_nodes : List (Nat × TreeNode)
  leaf_nodes : List (Nat × TreeNode)
  root_nodes : List (Nat × TreeNode)
  num_layers : Nat
deriving DecidableEq

/-- Python `tree.layer_to_nodes[i]` as an `Option` (a missing key raises
`KeyError`). -/
def lookupLayer (t : Tree) (i : Nat) : Option (List TreeNode) :=
  List.lookup i t.layer_to_nodes

/-- Per-layer statistics printed by the "各层节点分布" section of
`analyze_tree_structure` (lines 33-41). -/
structure LayerStat where
  layer : Nat
  node_count : Nat
  total_chars : Nat
  avg_chars : ℚ
deriving DecidableEq

/-- Fan-out statistics printed by the "树的形状" section of
`analyze_tree_structure` (lines 44-57), labelled `Layer i → Layer i+1`. -/
structure ChildStat where
  from_layer : Nat
  avg_children : ℚ
  min_children : Nat
  max_children : Nat
deriving DecidableEq

/-- Everything `analyze_tree_structure` reports. -/
structure Report where
  total_nodes : Nat
  tree_layers : Nat
  leaf_count : Nat
  root_count : Nat
  layer_stats : List LayerStat
  child_stats : List ChildStat
deriving DecidableEq

/-- Python `min(children_counts)`, `max(children_counts)`,
`sum/len` on a non-empty list (`None` for the empty list, which the code
guards with `if children_counts`). -/
def childStatOf (i : Nat) (ns : List TreeNode) : Option ChildStat :=
  match ns.map (fun nd => nd.children.card) with
  | [] => none
  | c :: cs =>
    some { from_layer := i,
           avg_children := ((((c :: cs).sum : ℕ)) : ℚ) / ((((c :: cs).length : ℕ)) : ℚ),
           min_children := cs.foldl min c,
           max_children := cs.foldl max c }

/-- Embedding of `analyze_tree_structure(tree)` (lines 18-59): basic counts,
per-layer text statistics, and child-count statistics for each
`layer_idx in range(tree.num_layers)` present in `layer_to_nodes`. -/
def analyze_tree_structure (t : Tree) : Report :=
  { total_nodes := t.all_nodes.length
    tree_layers := t.num_layers + 1
    leaf_count := t.leaf_nodes.length
    root_count := t.root_nodes.length
    layer_stats := t.layer_to_nodes.map (fun p =>
      let total := (p.2.map (fun nd => nd.text.length)).sum
      { layer := p.1, node_count := p.2.length, total_chars := total,
        avg_chars := if p.2.isEmpty then 0 else (total : ℚ) / (p.2.length : ℚ) })
    child_stats := (List.range t.num_layers).filterMap (fun i =>
      match lookupLayer t i with
      | none => none
      | some ns => childStatOf i ns) }

/-- One node record in the JSON export. -/
structure NodeRecord where
  index : Nat
  text : String
  text_length : Nat
  num_children : Nat
  children : List Nat
deriving DecidableEq

/-- The `meta` block of the JSON export. -/
structure TreeMeta where
  total_nodes : Nat
  num_layers : Nat
  leaf_nodes : Nat
  root_nodes : Nat
deriving DecidableEq

/-- The whole JSON document written by `extract_tree_to_json`. -/
structure TreeDict where
  meta : TreeMeta
  layers : List (String × List NodeRecord)
deriving DecidableEq

/-- The per-node record built at lines 109-115:
`{index, text, text_length, num_children, children: sorted(list(children))}`. -/
def nodeRecord (nd : TreeNode) : NodeRecord :=
  { index := nd.index, text := nd.text, text_length := nd.text.length,
    num_children := nd.children.card, children := nd.children.sort (· ≤ ·) }

/-- The dict key `f'layer_{layer_idx}'`. -/
def layerKey (i : Nat) : String := "layer_" ++ toString i

/-- Embedding of `extract_tree_to_json(tree)` (lines 92-118), without the
final file write. -/
def extract_tree_to_json (t : Tree) : TreeDict :=
  { meta := { total_nodes := t.all_nodes.length, num_layers := t.num_layers + 1,
              leaf_nodes := t.leaf_nodes.length, root_nodes := t.root_nodes.length }
    layers := t.layer_to_nodes.map (fun p => (layerKey p.1, p.2.map nodeRecord)) }

/-- Embedding of `show_sample_nodes(tree, num_samples)` (lines 62-89): the
first samples of `leaf_nodes.values()` and, when `num_layers > 0`, of
`layer_to_nodes[1]` (a lookup that can raise). -/
def show_sample_nodes (t : Tree) (num_samples : Nat) :
    Option (List TreeNode × List TreeNode) :=
  let leaves := (t.leaf_nodes.map Prod.snd).take num_samples
  if 0 < t.num_layers then
    (lookupLayer t 1).map (fun ns => (leaves, ns.take num_samples))
  else some (leaves, [])

/-- What `visualize_tree_graph` writes for one node (lines 143-153): index,
a 100-character text preview, the text length, and the sorted child list
when the child set is non-empty. -/
structure RenderedNode where
  index : Nat
  preview : String
  text_length : Nat
  children_line : Option (List Nat)
deriving DecidableEq

/-- Rendering of one node by `visualize_tree_graph`. -/
def renderNode (nd : TreeNode) : RenderedNode :=
  { index := nd.index, preview := String.mk (nd.text.data.take 100),
    text_length := nd.text.length,
    children_line := if nd.children = ∅ then none else some (nd.children.sort (· ≤ ·)) }

/-- Embedding of `visualize_tree_graph(tree)` (lines 128-155): iterates
`layer_idx` over `range(tree.num_layers, -1, -1)` and accesses
`tree.layer_to_nodes[layer_idx]` unconditionally — `none` models the
`KeyError` raised when a layer is missing. -/
def visualize_tree_graph (t : Tree) : Option (List (Nat × List RenderedNode)) :=
  (List.range (t.num_layers + 1)).reverse.mapM (fun i =>
    (lookupLayer t i).map (fun ns => (i, ns.map renderNode)))

/-- The §3 invariants of a well-formed tree: contiguous layers
`0..num_layers`, `all_nodes` the union of the layers, `leaf_nodes` layer 0,
`root_nodes` the top layer, globally unique indices, non-leaf nodes with at
least one child, and children living in the layer immediately below. -/
def Tree.inv (t : Tree) : Prop :=
  t.layer_to_nodes.map Prod.fst = List.range (t.num_layers + 1) ∧
  (t.all_nodes.map Prod.snd).Perm (t.layer_to_nodes.map Prod.snd).flatten ∧
  t.layer_to_nodes.head?.map Prod.snd = some (t.leaf_nodes.map Prod.snd) ∧
  t.layer_to_nodes.getLast?.map Prod.snd = some (t.root_nodes.map Prod.snd) ∧
  ((t.layer_to_nodes.map Prod.snd).flatten.map TreeNode.index).Nodup ∧
  (∀ p ∈ t.layer_to_nodes, ∀ nd ∈ p.2, 0 < p.1 → nd.children.Nonempty) ∧
  (∀ p ∈ t.layer_to_nodes, ∀ nd ∈ p.2, ∀ c ∈ nd.children,
    ∃ q ∈ t.layer_to_nodes, q.1 + 1 = p.1 ∧ ∃ m ∈ q.2, m.index = c)

/-- A tree with no layers at all (`layer_to_nodes` empty). -/
def emptyTree : Tree :=
  { layer_to_nodes := [], all_nodes := [], leaf_nodes := [], root_nodes := [],
    num_layers := 0 }

/-- A tree whose single layer holds no nodes, exercising the guarded
average at line 39. -/
def emptyLayerTree : Tree :=
  { layer_to_nodes := [(0, [])], all_nodes := [], leaf_nodes := [], root_nodes := [],
    num_layers := 0 }

/-- Leaf node constructor used by `specTree`. -/
def leafNode (i : Nat) (s : String) : TreeNode := { index := i, text := s, children := ∅ }

/-- The §8 example tree: four leaves, two layer-1 parents covering them. -/
def specTree : Tree :=
  { layer_to_nodes :=
      [(0, [leafNode 0 "a", leafNode 1 "b", leafNode 2 "c", leafNode 3 "d"]),
       (1, [⟨4, "ab", {0, 1}⟩, ⟨5, "cd", {2, 3}⟩])]
    all_nodes :=
      [(0, leafNode 0 "a"), (1, leafNode 1 "b"), (2, leafNode 2 "c"), (3, leafNode 3 "d"),
       (4, ⟨4, "ab", {0, 1}⟩), (5, ⟨5, "cd", {2, 3}⟩)]
    leaf_nodes :=
      [(0, leafNode 0 "a"), (1, leafNode 1 "b"), (2, leafNode 2 "c"), (3, leafNode 3 "d")]
    root_nodes := [(4, ⟨4, "ab", {0, 1}⟩), (5, ⟨5, "cd", {2, 3}⟩)]
    num_layers := 1 }

instance treeInvDecidable (t : Tree) : Decidable (Tree.inv t) := by
  unfold Tree.inv
  infer_instance

example : Tree.inv specTree := by decide
example : Tree.inv emptyLayerTree := by decide

/-! ### Reconstruction from the interchange format -/

/-- Rebuilding a node from its export record. -/
def reconstructNode (r : NodeRecord) : TreeNode :=
  { index := r.index, text := r.text, children := r.children.toFinset }

/-- Helper for `reconstructTree`, numbering the exported layers from `i`. -/
def reconstructAux : Nat → List (String × List NodeRecord) → List (Nat × List TreeNode)
  | _, [] => []
  | i, p :: ps => (i, p.2.map reconstructNode) :: reconstructAux (i + 1) ps

/-- Modelled from the spec (§4.2 round-trip contract, no reconstruction
exists in the source): rebuild the `layer_to_nodes` structure from the
interchange document, layer `i` being the `i`-th exported layer list. -/
def reconstructTree (d : TreeDict) : List (Nat × List TreeNode) :=
  reconstructAux 0 d.layers

/-- Every node survives the export record round trip. -/
theorem reconstructNode_nodeRecord (nd : TreeNode) :
    reconstructNode (nodeRecord nd) = nd := by
  simp [reconstructNode, nodeRecord, Finset.sort_toFinset]

/-- Round trip of `reconstructAux` over exported layers whose keys are the
contiguous range starting at `i`. -/
theorem reconstructAux_round_trip (L : List (Nat × List TreeNode)) :
    ∀ i, L.map Prod.fst = List.range' i L.length →
      reconstructAux i (L.map (fun p => (layerKey p.1, p.2.map nodeRecord))) = L := by
  induction L with
  | nil => intro i _; rfl
  | cons p ps ih =>
    intro i h
    rw [List.map_cons, List.length_cons,
      show List.range' i (ps.length + 1) = i :: List.range' (i + 1) ps.length from rfl] at h
    obtain ⟨h1, h2⟩ := List.cons.inj h
    simp only [List.map_cons, reconstructAux]
    rw [ih (i + 1) h2, List.map_map]
    have hmap : ps = ps ∧ p.2.map (reconstructNode ∘ nodeRecord) = p.2 := by
      refine ⟨rfl, ?_⟩
      rw [show reconstructNode ∘ nodeRecord = id from funext reconstructNode_nodeRecord]
      exact List.map_id p.2
    rw [hmap.2, ← h1]

/-- C2: for every tree satisfying the §3 invariants, reconstructing from
the interchange export recovers `layer_to_nodes` exactly — every layer,
every node's index, text and child-index set (lossless structural
round trip). -/
theorem export_round_trip (t : Tree) (h : t.inv) :
    reconstructTree (extract_tree_to_json t) = t.layer_to_nodes := by
  obtain ⟨hkeys, -, -, -, -, -, -⟩ := h
  have hlen : t.layer_to_nodes.length = t.num_layers + 1 := by
    have hc := congrArg List.length hkeys
    simpa using hc
  unfold reconstructTree extract_tree_to_json
  dsimp only
  exact reconstructAux_round_trip t.layer_to_nodes 0
    (by rw [hkeys, hlen, List.range_eq_range'])

/-- Witness for C2: the round trip at the §8 example tree. -/
theorem export_round_trip_witness :
    Tree.inv specTree ∧
      reconstructTree (extract_tree_to_json specTree) = specTree.layer_to_nodes :=
  ⟨by decide, export_round_trip specTree (by decide)⟩

/-- C9: the export's `meta` block matches the counts `structuralSummary`
reports, and the layers are, in order, one entry per layer keyed
`layer_<i>`, holding the node records
`{index, text, text_length, num_children, children}` with `children` the
ascending-sorted child list. -/
theorem export_shape (t : Tree) :
    (extract_tree_to_json t).meta.total_nodes = (analyze_tree_structure t).total_nodes ∧
      (extract_tree_to_json t).meta.num_layers = (analyze_tree_structure t).tree_layers ∧
      (extract_tree_to_json t).meta.leaf_nodes = (analyze_tree_structure t).leaf_count ∧
      (extract_tree_to_json t).meta.root_nodes = (analyze_tree_structure t).root_count ∧
      List.Forall₂ (fun (p : Nat × List TreeNode) (q : String × List NodeRecord) =>
          q.1 = layerKey p.1 ∧
            List.Forall₂ (fun nd r =>
              r.index = nd.index ∧ r.text = nd.text ∧ r.text_length = nd.text.length ∧
                r.num_children = nd.children.card ∧ List.Sorted (· ≤ ·) r.children ∧
                r.children.toFinset = nd.children) p.2 q.2)
        t.layer_to_nodes (extract_tree_to_json t).layers := by
  refine ⟨rfl, rfl, rfl, rfl, ?_⟩
  unfold extract_tree_to_json
  dsimp only
  rw [List.forall₂_map_right_iff, List.forall₂_same]
  intro p _
  refine ⟨rfl, ?_⟩
  rw [List.forall₂_map_right_iff, List.forall₂_same]
  intro nd _
  exact ⟨rfl, rfl, rfl, rfl, Finset.sort_sorted _ _, Finset.sort_toFinset _ _⟩

/-- C8: under the §3 invariants the reported total node count is the sum of
the per-layer counts, equals the leaf count plus the node count of layers
`1..num_layers`, and the reported layer count is `num_layers + 1`. -/
theorem summary_counts (t : Tree) (h : t.inv) :
    (analyze_tree_structure t).total_nodes =
        (t.layer_to_nodes.map (fun p => p.2.length)).sum ∧
      (analyze_tree_structure t).total_nodes =
        (analyze_tree_structure t).leaf_count +
          ((t.layer_to_nodes.filter (fun p => decide (0 < p.1))).map
            (fun p => p.2.length)).sum ∧
      (analyze_tree_structure t).tree_layers = t.num_layers + 1 := by
  obtain ⟨hkeys, hperm, hhead, -, -, -, -⟩ := h
  have htot : t.all_nodes.length = (t.layer_to_nodes.map (fun p => p.2.length)).sum := by
    have h1 := hperm.length_eq
    rw [List.length_map] at h1
    rw [h1, List.length_flatten, List.map_map]
    rfl
  refine ⟨htot, ?_, rfl⟩
  cases hlt : t.layer_to_nodes with
  | nil =>
    rw [hlt] at hkeys
    exact absurd hkeys.symm (by simp)
  | cons p rest =>
    rw [hlt] at hkeys hhead htot
    rw [List.map_cons, List.range_succ_eq_map] at hkeys
    obtain ⟨h1, h2⟩ := List.cons.inj hkeys
    have hleaf : (analyze_tree_structure t).leaf_count = p.2.length := by
      have hh : p.2 = t.leaf_nodes.map Prod.snd := by
        simpa using hhead
      show t.leaf_nodes.length = p.2.length
      rw [hh, List.length_map]
    have hfilter : (p :: rest).filter (fun q => decide (0 < q.1)) = rest := by
      rw [List.filter_cons_of_neg (by simp [← h1]), List.filter_eq_self.mpr]
      intro q hq
      have hmem : q.1 ∈ rest.map Prod.fst := List.mem_map_of_mem Prod.fst hq
      rw [h2] at hmem
      obtain ⟨m, -, hm⟩ := List.mem_map.mp hmem
      simp [← hm]
    show t.all_nodes.length = _
    rw [htot, hleaf, hfilter, List.map_cons, List.sum_cons]

/-- Witness for C8: the count identities at the §8 example tree. -/
theorem summary_counts_witness :
    Tree.inv specTree ∧
      ((analyze_tree_structure specTree).total_nodes =
          (specTree.layer_to_nodes.map (fun p => p.2.length)).sum ∧
        (analyze_tree_structure specTree).total_nodes =
          (analyze_tree_structure specTree).leaf_count +
            ((specTree.layer_to_nodes.filter (fun p => decide (0 < p.1))).map
              (fun p => p.2.length)).sum ∧
        (analyze_tree_structure specTree).tree_layers = specTree.num_layers + 1) :=
  ⟨by decide, summary_counts specTree (by decide)⟩

/-- C3 divergence: on the §8 example tree (four leaves, two layer-1 parents
with two children each) the code reports child-count statistics for layer 0
— all zeros — and none for layer 1, because line 45 iterates
`range(tree.num_layers)` instead of layers `1..num_layers`. -/
theorem fanout_reported_for_wrong_layers :
    (analyze_tree_structure specTree).child_stats =
        [{ from_layer := 0, avg_children := 0, min_children := 0, max_children := 0 }] ∧
      ∀ s ∈ (analyze_tree_structure specTree).child_stats, s.from_layer ≠ 1 := by
  have h : (analyze_tree_structure specTree).child_stats =
      [{ from_layer := 0, avg_children := 0, min_children := 0, max_children := 0 }] := by
    norm_num [analyze_tree_structure, specTree, lookupLayer, childStatOf, leafNode,
      List.lookup, List.range_succ, List.filterMap]
  refine ⟨h, ?_⟩
  rw [h]
  intro s hs
  rw [List.mem_singleton.mp hs]
  decide

/-- C4 divergence: on a tree with no layers, `analyze_tree_structure`,
`extract_tree_to_json` and `show_sample_nodes` all return empty/zero
results (and an empty layer's average is reported as `0`), but
`visualize_tree_graph` fails (`KeyError` on `layer_to_nodes[0]`, modelled
as `none`) instead of producing an empty render. -/
theorem empty_tree_behaviour :
    visualize_tree_graph emptyTree = none ∧
      analyze_tree_structure emptyTree =
        { total_nodes := 0, tree_layers := 1, leaf_count := 0, root_count := 0,
          layer_stats := [], child_stats := [] } ∧
      extract_tree_to_json emptyTree =
        { meta := { total_nodes := 0, num_layers := 1, leaf_nodes := 0, root_nodes := 0 },
          layers := [] } ∧
      show_sample_nodes emptyTree 2 = some ([], []) ∧
      analyze_tree_structure emptyLayerTree =
        { total_nodes := 0, tree_layers := 1, leaf_count := 0, root_count := 0,
          layer_stats := [{ layer := 0, node_count := 0, total_chars := 0, avg_chars := 0 }],
          child_stats := [] } := by decide

end PaperRag
